import Mathlib

/-!
# Shallow embedding of the collaborative canvas core

This file embeds the synchronization and rendering core of the
collaborative-canvas repository (`src/components/Canvas/Canvas.tsx`) and
proves the specification claims about it.

Conventions of the embedding:
* JS numbers appearing in the component are pixel coordinates, widths and
  millisecond timestamps; every value the component manipulates with them is
  integral, so they are modelled as `Int` (timestamps as `Nat`).
* JS objects with optional fields (`CanvasElement.data`) become structures of
  `Option` fields; JS truthiness tests on those fields are modelled
  explicitly (`none` and the empty string are falsy, `0` is falsy for
  numbers, an array is always truthy).
* Canvas-2D side effects are reified as a list of `RenderOp` commands, in
  the order the source issues them.
* React `useState`/`useRef` cells become explicit state records threaded
  through the functions that the source mutates them in.
-/

namespace Viral

/-- A 2D point (used both for screen/client coordinates and world
coordinates), as in the `{x, y}` object literals of the source. -/
structure Pt where
  x : Int
  y : Int
deriving DecidableEq, Repr

/-- The two element kinds: the source's `'draw'` and `'text'` strings. -/
inductive ElemKind
  | draw
  | text
deriving DecidableEq, Repr

/-- Shape of `CanvasElement.data` from `src/types/index.ts`: all fields optional. -/
structure ElemData where
  points : Option (List Pt) := none
  text : Option String := none
  position : Option Pt := none
  color : Option String := none
  width : Option Int := none
deriving DecidableEq, Repr

/-- Record `CanvasElement` from `src/types/index.ts`. -/
structure CanvasElement where
  id : String
  type : ElemKind
  data : ElemData
  userId : String
  timestamp : Nat
deriving DecidableEq, Repr

/-- JS `a || b` for an optional string field: `undefined` and `""` are falsy. -/
def jsOrS : Option String → String → String
  | some s, d => if s = "" then d else s
  | none, d => d

/-- JS `a || b` for an optional numeric field: `undefined` and `0` are falsy. -/
def jsOrW : Option Int → Int → Int
  | some w, d => if w = 0 then d else w
  | none, d => d

/-- JS truthiness of an optional string (`undefined` and `""` are falsy). -/
def strTruthy : Option String → Bool
  | some s => s ≠ ""
  | none => false

/-! ## Coordinate transform (`screenToWorld`, offset handling) -/

/-- Source `screenToWorld` (Canvas.tsx lines 45–59): subtracts the canvas bounding
rectangle origin (`rect.left`, `rect.top`) and then the pan offset; scale is
fixed at 1. -/
def screenToWorld (rectLeft rectTop : Int) (offset : Pt) (clientX clientY : Int) : Pt :=
  { x := clientX - rectLeft - offset.x
  , y := clientY - rectTop - offset.y }

/-- The default pan offset, `offsetRef` initial value `{ x: 500, y: 500 }`. -/
def defaultOffset : Pt := ⟨500, 500⟩

/-! ## The pan interaction machine

State tracked by `isPanningRef`, `lastPanPointRef` and `offsetRef`, and the
pan-mode branches of `startDrawing`, `draw` and `stopDrawing`. -/

/-- The pan-related mutable refs of the component. -/
structure PanState where
  isPanning : Bool
  lastPanPoint : Pt
  offset : Pt
deriving DecidableEq, Repr

/-- Initial ref values: `isPanningRef = false`, `lastPanPointRef = {500,500}`,
`offsetRef = {500,500}`. -/
def initPanState : PanState :=
  { isPanning := false, lastPanPoint := ⟨500, 500⟩, offset := defaultOffset }

/-- Pan-mode branch of `startDrawing` (lines 358–365): starts panning and
records the pointer-down client position as the pan reference. -/
def startDrawingPan (s : PanState) (client : Pt) : PanState :=
  { s with isPanning := true, lastPanPoint := client }

/-- Pan branch of `draw` (lines 406–421): while panning, adds the delta from
the last recorded reference to the offset and moves the reference to the
current client position. -/
def drawPan (s : PanState) (client : Pt) : PanState :=
  if s.isPanning then
    { s with
      offset := ⟨s.offset.x + (client.x - s.lastPanPoint.x),
                 s.offset.y + (client.y - s.lastPanPoint.y)⟩
      lastPanPoint := client }
  else s

/-- Pan branch of `stopDrawing` (lines 452–466): ends panning; returns the
new state together with whether hit-testing (`checkTextElementClick`) is
performed, i.e. whether `|clientX - lastPanPoint.x| < 5 ` and
`|clientY - lastPanPoint.y| < 5`. -/
def stopDrawingPan (s : PanState) (client : Pt) : PanState × Bool :=
  if s.isPanning then
    ({ s with isPanning := false },
     decide (|client.x - s.lastPanPoint.x| < 5) &&
     decide (|client.y - s.lastPanPoint.y| < 5))
  else (s, false)

/-- Source `resetView` (lines 480–485): restores the default offset. -/
def resetView (s : PanState) : PanState :=
  { s with offset := defaultOffset }

/-- A whole pan gesture: pointer-down at `d` followed by a sequence of
pointer-moves. -/
def panGesture (d : Pt) (moves : List Pt) : PanState :=
  moves.foldl drawPan (startDrawingPan initPanState d)

/-! ## JS number-to-string (element ids)

Element ids are `Date.now().toString()`: the decimal representation of a
millisecond timestamp. Decimal printing is modelled structurally (fuel
recursion) so that it evaluates inside the kernel, and proved injective. -/

/-- Little-endian decimal digits of `n`, with structural fuel (`fuel ≥ n`
suffices since `n / 10 < n` for `n > 0`). -/
def digitsAux : Nat → Nat → List Nat
  | _, 0 => []
  | 0, _ + 1 => []
  | fuel + 1, n + 1 => ((n + 1) % 10) :: digitsAux fuel ((n + 1) / 10)

/-- Little-endian decimal digits of `n`. -/
def natDigits (n : Nat) : List Nat := digitsAux n n

/-- Value of a little-endian digit list. -/
def valDigits (ds : List Nat) : Nat := ds.foldr (fun d acc => d + 10 * acc) 0

/-- JS `Number.prototype.toString()` on a nonnegative integer: decimal
digits, most significant first, with `0` printed as `"0"`. -/
def jsNumberToString (n : Nat) : String :=
  if n = 0 then "0" else ⟨((natDigits n).map Nat.digitChar).reverse⟩

/-! ## Render pipeline

Canvas-2D drawing is reified as a list of commands in source order. -/

/-- One canvas-2D command issued by the component. -/
inductive RenderOp
  | clear
  | save
  | translate (offset : Pt)
  | polyline (color : String) (width : Int) (points : List Pt)
  | fillText (color : String) (text : String) (pos : Pt)
  | restore
deriving DecidableEq, Repr

/-- The drawing commands `redrawCanvas` issues for one stored element
(Canvas.tsx lines 75–100): a stroke with ≥ 2 points becomes one polyline
(its own color/width, falling back to the live tool values when unset); a
text element with truthy text and a position becomes one `fillText`, unless
it is the label currently under active local edit, which is skipped. -/
def elementOps (toolColor : String) (toolWidth : Int) (editingText : Bool)
    (activeTextId : Option String) (e : CanvasElement) : List RenderOp :=
  match e.type, e.data.points, e.data.text, e.data.position with
  | .draw, some ps, _, _ =>
      if ps.length > 1 then
        [.polyline (jsOrS e.data.color toolColor) (jsOrW e.data.width toolWidth) ps]
      else []
  | .text, _, some t, some pos =>
      if t = "" then []
      else if editingText ∧ activeTextId = some e.id then []
      else [.fillText (jsOrS e.data.color toolColor) t pos]
  | _, _, _, _ => []

/-- Source `redrawCanvas` (lines 62–120): clear, save, translate by the pan offset,
draw every stored element in order, then — if a draw gesture is in progress
and the in-flight buffer has more than one point — the in-flight polyline in
the live tool color/width, then restore. -/
def redrawCanvasOps (offset : Pt) (elements : List CanvasElement) (toolColor : String)
    (toolWidth : Int) (editingText : Bool) (activeTextId : Option String)
    (isDrawing : Bool) (currentPath : List Pt) : List RenderOp :=
  [.clear, .save, .translate offset]
  ++ (elements.map (elementOps toolColor toolWidth editingText activeTextId)).flatten
  ++ (if isDrawing ∧ currentPath.length > 1 then
        [.polyline toolColor toolWidth currentPath]
      else [])
  ++ [.restore]

/-- The inline full redraw performed by `loadDrawingsFromDatabase` after each
poll reconciliation (lines 623–664): clear, save, translate, draw every
element of the freshly loaded collection in order, restore. It has no
in-flight-buffer pass. -/
def pollRedrawOps (offset : Pt) (elements : List CanvasElement) (toolColor : String)
    (toolWidth : Int) (editingText : Bool) (activeTextId : Option String) :
    List RenderOp :=
  [.clear, .save, .translate offset]
  ++ (elements.map (elementOps toolColor toolWidth editingText activeTextId)).flatten
  ++ [.restore]

/-- Source `drawSingleElement` (lines 123–154), also duplicated inline in the push
subscription handler (lines 697–726): save, translate by the pan offset, draw
the one element (no active-edit skip), restore. -/
def drawSingleElementOps (offset : Pt) (toolColor : String) (toolWidth : Int)
    (e : CanvasElement) : List RenderOp :=
  [.save, .translate offset]
  ++ (match e.type, e.data.points, e.data.text, e.data.position with
      | .draw, some ps, _, _ =>
          if ps.length ≥ 2 then
            [.polyline (jsOrS e.data.color toolColor) (jsOrW e.data.width toolWidth) ps]
          else []
      | .text, _, some t, some pos =>
          if t = "" then [] else [.fillText (jsOrS e.data.color toolColor) t pos]
      | _, _, _, _ => [])
  ++ [.restore]

/-! ## Element Store operations -/

/-- The `setLocalDrawings(prev => [...prev, element])` append pattern. -/
def appendElement (store : List CanvasElement) (e : CanvasElement) : List CanvasElement :=
  store ++ [e]

/-- A sequence of appends applied to the initially empty store. -/
def runAppends (es : List CanvasElement) : List CanvasElement :=
  es.foldl appendElement []

/-- Source `saveDrawing` (lines 157–201): no-op on an empty point list; otherwise
builds a stroke element whose id and timestamp both come from `Date.now()`
(`now`) and appends it to the store. The asynchronous Supabase insert does
not touch the local store and is not modelled. -/
def saveDrawing (now : Nat) (points : List Pt) (color : String) (width : Int)
    (username : String) (store : List CanvasElement) : List CanvasElement :=
  if points.length < 1 then store
  else
    appendElement store
      { id := jsNumberToString now
      , type := .draw
      , data := { points := some points, color := some color, width := some width }
      , userId := username
      , timestamp := now }

/-- Source `saveTextElement` (lines 204–246): builds a text element whose id and
timestamp both come from `Date.now()` (`now`) and appends it to the store. -/
def saveTextElement (now : Nat) (text : String) (pos : Pt) (color : String)
    (username : String) (store : List CanvasElement) : List CanvasElement :=
  appendElement store
    { id := jsNumberToString now
    , type := .text
    , data := { text := some text, position := some pos, color := some color }
    , userId := username
    , timestamp := now }

/-- Source `updateTextElement` (lines 249–288), local-state part: maps over the
store, replacing the `text` and `position` fields of the element whose id
matches (spreading the rest of the element and of its data unchanged). -/
def updateTextElement (targetId : String) (text : String) (pos : Pt)
    (store : List CanvasElement) : List CanvasElement :=
  store.map fun e =>
    if e.id = targetId then
      { e with data := { e.data with text := some text, position := some pos } }
    else e

/-- The two local creation paths of the store (`saveDrawing`,
`saveTextElement`), each invoked at some `Date.now()` value. -/
inductive LocalCreate
  | stroke (points : List Pt) (color : String) (width : Int)
  | label (text : String) (pos : Pt) (color : String)
deriving DecidableEq, Repr

/-- Apply one local creation at clock value `now`. -/
def applyCreate (username : String) (store : List CanvasElement) :
    Nat × LocalCreate → List CanvasElement
  | (now, .stroke ps c w) => saveDrawing now ps c w username store
  | (now, .label t pos c) => saveTextElement now t pos c username store

/-- Run a sequence of local creations from the empty store. -/
def runCreates (username : String) (ops : List (Nat × LocalCreate)) :
    List CanvasElement :=
  ops.foldl (applyCreate username) []

/-! ## Push-notification merge -/

/-- The `postgres_changes` INSERT handler of `setupSubscription`
(lines 677–746): a notification whose `user_id` differs from the local
`username` is appended to the store and drawn incrementally under the
current pan transform; a same-author notification is ignored. -/
def handleInsertPayload (username : String) (offset : Pt) (toolColor : String)
    (toolWidth : Int) (store : List CanvasElement) (incoming : CanvasElement) :
    List CanvasElement × List RenderOp :=
  if incoming.userId ≠ username then
    (store ++ [incoming], drawSingleElementOps offset toolColor toolWidth incoming)
  else (store, [])

/-! ## Hit-testing -/

/-- The box test of `checkTextElementClick` (lines 317–347) for one element:
a text element with truthy text and a position is hit when the world point
lies within the box anchored at its position, extended right by
`text.length * 8` and up by `textHeight = 20`, with a margin of 5. -/
def labelHit (p : Pt) (e : CanvasElement) : Bool :=
  match e.type, e.data.position, e.data.text with
  | .text, some pos, some t =>
      t ≠ "" &&
      decide (p.x ≥ pos.x - 5) &&
      decide (p.x ≤ pos.x + 8 * t.length + 5) &&
      decide (p.y ≥ pos.y - 20 - 5) &&
      decide (p.y ≤ pos.y + 5)
  | _, _, _ => false

/-- The `for (let i = localDrawings.length - 1; i >= 0; i--)` loop of
`checkTextElementClick`: scans the store from the most recently appended
element to the earliest and returns the first hit. -/
def checkLoop (p : Pt) : List CanvasElement → Option CanvasElement
  | [] => none
  | e :: rest =>
      match checkLoop p rest with
      | some r => some r
      | none => if labelHit p e then some e else none

/-- Source `checkTextElementClick` (lines 317–347): no hit-testing while a text
edit is active; otherwise returns the most recently appended element whose
box contains the point (the source then opens a text edit on it and returns
`true`). -/
def checkTextElementClick (editingText : Bool) (store : List CanvasElement)
    (p : Pt) : Option CanvasElement :=
  if editingText then none else checkLoop p store

/-! ## Text-edit overlay -/

/-- The text-editing state (`textPosition`, `textContent`, `editingText`,
`activeTextId`). `editingText = false` is the `Idle` interaction state. -/
structure OverlayState where
  textPosition : Option Pt
  textContent : String
  editingText : Bool
  activeTextId : Option String
deriving DecidableEq, Repr

/-- The cleared overlay that every commit path resets to. -/
def clearedOverlay : OverlayState :=
  { textPosition := none, textContent := "", editingText := false, activeTextId := none }

/-- JS `String.prototype.trim`, modelled structurally over the character
list: strips leading and trailing whitespace. -/
def jsTrim (s : String) : String :=
  ⟨((s.data.dropWhile Char.isWhitespace).reverse.dropWhile Char.isWhitespace).reverse⟩

/-- Source `finishTextEditing` (lines 291–314): with no pending position or an
empty trimmed text, clears the overlay and leaves the store alone; otherwise
commits the trimmed text — updating the active element if an id is set,
creating a new text element if not — and clears the overlay. -/
def finishTextEditing (now : Nat) (toolColor : String) (username : String)
    (ov : OverlayState) (store : List CanvasElement) :
    OverlayState × List CanvasElement :=
  match ov.textPosition with
  | none => (clearedOverlay, store)
  | some pos =>
      if jsTrim ov.textContent = "" then (clearedOverlay, store)
      else
        match ov.activeTextId with
        | some tid =>
            (clearedOverlay, updateTextElement tid (jsTrim ov.textContent) pos store)
        | none =>
            (clearedOverlay,
             saveTextElement now (jsTrim ov.textContent) pos toolColor username store)

/-! ## Sample data for concrete evaluations -/

/-- A remote stroke element authored by `"bob"`. -/
def sampleRemoteElement : CanvasElement :=
  { id := "r1"
  , type := .draw
  , data := { points := some [⟨0, 0⟩, ⟨1, 1⟩], color := some "red", width := some 2 }
  , userId := "bob"
  , timestamp := 7 }

/-- A text element anchored at `(10, 10)` with text `"hi"`. -/
def sampleLabelA : CanvasElement :=
  { id := "a"
  , type := .text
  , data := { text := some "hi", position := some ⟨10, 10⟩, color := some "blue" }
  , userId := "alice"
  , timestamp := 1 }

/-- A second, overlapping text element anchored at `(12, 12)`. -/
def sampleLabelB : CanvasElement :=
  { id := "b"
  , type := .text
  , data := { text := some "yo", position := some ⟨12, 12⟩, color := some "green" }
  , userId := "bob"
  , timestamp := 2 }

end Viral

namespace Viral

theorem drawPan_isPanning (s : PanState) (c : Pt) :
    (drawPan s c).isPanning = s.isPanning := by
  unfold drawPan
  split <;> rfl

theorem foldl_drawPan_isPanning (ms : List Pt) (s : PanState) :
    (ms.foldl drawPan s).isPanning = s.isPanning := by
  induction ms generalizing s with
  | nil => rfl
  | cons m ms ih => simp [List.foldl_cons, ih, drawPan_isPanning]

theorem foldl_drawPan_lastPanPoint (ms : List Pt) (s : PanState)
    (hs : s.isPanning = true) :
    (ms.foldl drawPan s).lastPanPoint = ms.getLast?.getD s.lastPanPoint := by
  induction ms generalizing s with
  | nil => rfl
  | cons m ms ih =>
      have h1 : (drawPan s m).isPanning = true := by
        rw [drawPan_isPanning]; exact hs
      have h2 : (drawPan s m).lastPanPoint = m := by
        unfold drawPan
        rw [if_pos hs]
      rw [List.foldl_cons, ih _ h1, h2]
      cases ms with
      | nil => rfl
      | cons a as =>
          rw [List.getLast?_eq_getLast _ (by simp)]
          rfl

/-- Characterization of the pan-up hit-test guard: after a pointer-down at
`d` and a sequence of pointer-moves `ms`, the displacement that
`stopDrawingPan` tests is measured from the *last pointer-move position*
(`ms.getLast?.getD d`), not from the pointer-down position `d`. -/
theorem stopDrawingPan_measures_from_last_move (d u : Pt) (ms : List Pt) :
    (stopDrawingPan (panGesture d ms) u).2 =
      ((decide (|u.x - (ms.getLast?.getD d).x| < 5)) &&
       (decide (|u.y - (ms.getLast?.getD d).y| < 5))) := by
  have hp : (panGesture d ms).isPanning = true := by
    unfold panGesture
    rw [foldl_drawPan_isPanning]
    rfl
  have hl : (panGesture d ms).lastPanPoint = ms.getLast?.getD d := by
    unfold panGesture
    rw [foldl_drawPan_lastPanPoint _ _ (by rfl)]
    rfl
  unfold stopDrawingPan
  rw [if_pos hp, hl]

/-- C1. The claim says a pan drag whose total displacement since pointer-down
exceeds the threshold never triggers hit-testing. On the code it does: the
threshold is compared against `lastPanPointRef`, which every pointer-move
updates, so after the gesture down at `(0,0)`, move to `(100,100)`, up at
`(100,100)` — total displacement 100 px on each axis — hit-testing is still
performed. -/
theorem stopDrawingPan_hitTests_after_long_drag :
    (stopDrawingPan (panGesture ⟨0, 0⟩ [⟨100, 100⟩]) ⟨100, 100⟩).2 = true ∧
      ¬ (|(100 : Int) - 0| < 5 ∧ |(100 : Int) - 0| < 5) := by
  constructor
  · decide
  · decide

/-- C2 (counterexample). With a draw gesture in progress (buffer
`[(0,0),(1,1)]`), the full redraw performed after poll reconciliation does
not draw the in-flight buffer: it differs from `redrawCanvas` in that state,
and the in-flight polyline is absent from its command list. -/
theorem pollRedraw_omits_inflight_buffer :
    pollRedrawOps ⟨500, 500⟩ [] "c" 1 false none ≠
      redrawCanvasOps ⟨500, 500⟩ [] "c" 1 false none true [⟨0, 0⟩, ⟨1, 1⟩] ∧
    RenderOp.polyline "c" 1 [⟨0, 0⟩, ⟨1, 1⟩] ∉
      pollRedrawOps ⟨500, 500⟩ [] "c" 1 false none := by
  constructor
  · decide
  · decide

/-- C2 (amended). Every full redraw clears the surface, applies the pan
translation and draws all stored elements in order; `redrawCanvas`
additionally draws the in-flight point buffer on top with the live tool
color/width when a draw gesture is in progress, while the poll-reconciliation
redraw omits that pass: it coincides with `redrawCanvas` run with no gesture
in progress. -/
theorem pollRedraw_eq_redrawCanvas_no_gesture (offset : Pt)
    (elements : List CanvasElement) (toolColor : String) (toolWidth : Int)
    (editingText : Bool) (activeTextId : Option String) :
    pollRedrawOps offset elements toolColor toolWidth editingText activeTextId =
      redrawCanvasOps offset elements toolColor toolWidth editingText activeTextId
        false [] := by
  simp [pollRedrawOps, redrawCanvasOps]

/-- C7. `screenToWorld` subtracts the pixel-surface origin offset
(`rect.left`, `rect.top`) and the pan offset with scale fixed at 1, so adding
both offsets back to the world point reconstructs the original screen point
exactly. -/
theorem screenToWorld_roundTrip (rectLeft rectTop : Int) (offset : Pt)
    (clientX clientY : Int) :
    (screenToWorld rectLeft rectTop offset clientX clientY).x + offset.x + rectLeft
        = clientX ∧
    (screenToWorld rectLeft rectTop offset clientX clientY).y + offset.y + rectTop
        = clientY := by
  unfold screenToWorld
  constructor <;> ring

/-- C8. Starting from the default pan offset, two pointer-moves of delta
`(20,-5)` each leave the offset at the default plus `(40,-10)`, and
`resetView` then restores exactly the default offset. -/
theorem pan_twice_then_reset :
    (drawPan (drawPan (startDrawingPan initPanState ⟨0, 0⟩) ⟨20, -5⟩) ⟨40, -10⟩).offset
        = ⟨defaultOffset.x + 40, defaultOffset.y - 10⟩ ∧
    (resetView (drawPan (drawPan (startDrawingPan initPanState ⟨0, 0⟩) ⟨20, -5⟩)
        ⟨40, -10⟩)).offset = defaultOffset := by
  constructor
  · decide
  · decide

/-! ### Injectivity of decimal id printing -/

theorem valDigits_cons (d : Nat) (ds : List Nat) :
    valDigits (d :: ds) = d + 10 * valDigits ds := rfl

theorem digitsAux_val : ∀ (fuel n : Nat), n ≤ fuel → valDigits (digitsAux fuel n) = n
  | fuel, 0, _ => by cases fuel <;> rfl
  | 0, n + 1, h => by omega
  | fuel + 1, n + 1, _ => by
      have hdiv : (n + 1) / 10 ≤ fuel := by
        have := Nat.div_lt_self (Nat.succ_pos n) (by norm_num : 1 < 10)
        omega
      show valDigits (((n + 1) % 10) :: digitsAux fuel ((n + 1) / 10)) = n + 1
      rw [valDigits_cons, digitsAux_val fuel ((n + 1) / 10) hdiv]
      omega

theorem natDigits_val (n : Nat) : valDigits (natDigits n) = n :=
  digitsAux_val n n (Nat.le_refl n)

theorem natDigits_injective {m n : Nat} (h : natDigits m = natDigits n) : m = n := by
  rw [← natDigits_val m, ← natDigits_val n, h]

theorem digitsAux_lt_ten : ∀ (fuel n : Nat), ∀ d ∈ digitsAux fuel n, d < 10
  | fuel, 0 => by cases fuel <;> simp [digitsAux]
  | 0, _ + 1 => by simp [digitsAux]
  | fuel + 1, n + 1 => by
      intro d hd
      rw [show digitsAux (fuel + 1) (n + 1)
            = ((n + 1) % 10) :: digitsAux fuel ((n + 1) / 10) from rfl] at hd
      rcases List.mem_cons.mp hd with h | h
      · subst h
        exact Nat.mod_lt _ (by norm_num)
      · exact digitsAux_lt_ten fuel ((n + 1) / 10) d h

theorem natDigits_lt_ten (n : Nat) : ∀ d ∈ natDigits n, d < 10 :=
  digitsAux_lt_ten n n

theorem digitChar_inj_lt {a b : Nat} (ha : a < 10) (hb : b < 10)
    (h : Nat.digitChar a = Nat.digitChar b) : a = b := by
  interval_cases a <;> interval_cases b <;> revert h <;> decide

theorem map_digitChar_inj : ∀ (xs ys : List Nat),
    (∀ d ∈ xs, d < 10) → (∀ d ∈ ys, d < 10) →
    xs.map Nat.digitChar = ys.map Nat.digitChar → xs = ys
  | [], [], _, _, _ => rfl
  | [], _ :: _, _, _, h => by simp at h
  | _ :: _, [], _, _, h => by simp at h
  | x :: xs, y :: ys, hx, hy, h => by
      simp only [List.map_cons, List.cons.injEq] at h
      have hhead := digitChar_inj_lt (hx x (by simp)) (hy y (by simp)) h.1
      have htail := map_digitChar_inj xs ys
        (fun d hd => hx d (by simp [hd])) (fun d hd => hy d (by simp [hd])) h.2
      rw [hhead, htail]

theorem jsNumberToString_eq_zero {n : Nat} (h : jsNumberToString n = "0") : n = 0 := by
  by_contra hn
  rw [jsNumberToString, if_neg hn] at h
  have hdata : ((natDigits n).map Nat.digitChar).reverse = ['0'] :=
    congrArg String.data h
  have h2 : (natDigits n).map Nat.digitChar = ['0'] := by
    have := congrArg List.reverse hdata
    simpa using this
  cases hd : natDigits n with
  | nil => rw [hd] at h2; simp at h2
  | cons d ds =>
      rw [hd] at h2
      simp only [List.map_cons, List.cons.injEq] at h2
      have hds : ds = [] := by simpa using h2.2
      have hd10 : d < 10 := natDigits_lt_ten n d (hd ▸ List.mem_cons_self d ds)
      have hd0 : d = 0 :=
        digitChar_inj_lt hd10 (by norm_num) (h2.1.trans rfl)
      have hv := natDigits_val n
      rw [hd, hds, hd0] at hv
      exact hn (by simpa [valDigits] using hv.symm)

theorem jsNumberToString_injective {m n : Nat}
    (h : jsNumberToString m = jsNumberToString n) : m = n := by
  by_cases hm : m = 0
  · subst hm
    exact (jsNumberToString_eq_zero h.symm).symm
  · by_cases hn : n = 0
    · subst hn
      exact jsNumberToString_eq_zero h
    · rw [jsNumberToString, jsNumberToString, if_neg hm, if_neg hn] at h
      have hdata : ((natDigits m).map Nat.digitChar).reverse
          = ((natDigits n).map Nat.digitChar).reverse := congrArg String.data h
      have h2 : (natDigits m).map Nat.digitChar = (natDigits n).map Nat.digitChar := by
        have := congrArg List.reverse hdata
        simpa using this
      exact natDigits_injective
        (map_digitChar_inj _ _ (natDigits_lt_ten m) (natDigits_lt_ten n) h2)

/-! ### Id uniqueness under local creations (C3) -/

theorem applyCreate_ids (username : String) (store : List CanvasElement)
    (t : Nat) (op : LocalCreate) :
    (applyCreate username store (t, op)).map (fun e => e.id)
        = store.map (fun e => e.id) ∨
    (applyCreate username store (t, op)).map (fun e => e.id)
        = store.map (fun e => e.id) ++ [jsNumberToString t] := by
  cases op with
  | stroke ps c w =>
      rw [applyCreate, saveDrawing]
      split
      · left; rfl
      · right; simp [appendElement]
  | label tx pos c =>
      right
      rw [applyCreate, saveTextElement]
      simp [appendElement]

theorem runCreates_aux_nodup (username : String) :
    ∀ (ops : List (Nat × LocalCreate)) (store : List CanvasElement),
      (store.map (fun e => e.id)).Nodup →
      (∀ s ∈ store.map (fun e => e.id), ∀ q ∈ ops, s ≠ jsNumberToString q.1) →
      (ops.map Prod.fst).Nodup →
      ((ops.foldl (applyCreate username) store).map (fun e => e.id)).Nodup := by
  intro ops
  induction ops with
  | nil => intro store h1 _ _; exact h1
  | cons q rest ih =>
      intro store h1 h2 h3
      obtain ⟨t, op⟩ := q
      rw [List.foldl_cons]
      have htimes : ((rest.map Prod.fst).Nodup) ∧ t ∉ rest.map Prod.fst := by
        rw [List.map_cons, List.nodup_cons] at h3
        exact ⟨h3.2, h3.1⟩
      rcases applyCreate_ids username store t op with hsame | happ
      · refine ih (applyCreate username store (t, op)) (by rw [hsame]; exact h1)
          ?_ htimes.1
        intro s hs q hq
        rw [hsame] at hs
        exact h2 s hs q (List.mem_cons_of_mem _ hq)
      · refine ih (applyCreate username store (t, op)) ?_ ?_ htimes.1
        · rw [happ, List.nodup_append]
          refine ⟨h1, List.nodup_singleton _, ?_⟩
          intro s hs hs'
          rw [List.mem_singleton] at hs'
          exact h2 s hs (t, op) (List.mem_cons_self _ _) hs'
        · intro s hs q hq
          rw [happ, List.mem_append, List.mem_singleton] at hs
          rcases hs with hs | hs
          · exact h2 s hs q (List.mem_cons_of_mem _ hq)
          · subst hs
            intro hcontra
            have : t = q.1 := jsNumberToString_injective hcontra
            exact htimes.2 (this ▸ List.mem_map_of_mem Prod.fst hq)

/-- C3 (amended). Ids are assigned at creation as the decimal string of the
creation clock value; for every store reachable from empty by local
creations (`saveDrawing` / `saveTextElement`) whose clock values are
pairwise distinct, ids are unique within the store. -/
theorem runCreates_ids_nodup (username : String) (ops : List (Nat × LocalCreate))
    (htimes : (ops.map Prod.fst).Nodup) :
    ((runCreates username ops).map (fun e => e.id)).Nodup :=
  runCreates_aux_nodup username ops [] (by simp) (by simp) htimes

/-- C3 (witness). Two local creations at distinct clock values give a store
with distinct ids. -/
theorem runCreates_ids_nodup_witness :
    ((runCreates "alice"
        [(1, .label "hi" ⟨0, 0⟩ "c"), (2, .stroke [⟨0, 0⟩, ⟨1, 1⟩] "c" 1)]).map
      (fun e => e.id)).Nodup :=
  runCreates_ids_nodup "alice"
    [(1, .label "hi" ⟨0, 0⟩ "c"), (2, .stroke [⟨0, 0⟩, ⟨1, 1⟩] "c" 1)] (by decide)

/-- C3 (counterexample). The claim's unconditional uniqueness fails on the
code: two local creations in the same millisecond (`Date.now()` returning
`1000` for both the stroke save and the text save) put two elements with the
same id `"1000"` in the store. -/
theorem sameMillisecond_duplicate_ids :
    ¬ ((runCreates "alice"
        [(1000, .stroke [⟨0, 0⟩, ⟨1, 1⟩] "c" 1), (1000, .label "hi" ⟨2, 2⟩ "c")]).map
      (fun e => e.id)).Nodup := by
  decide

/-! ### Element Store append behaviour (C9) -/

theorem foldl_appendElement (es : List CanvasElement) :
    ∀ acc, es.foldl appendElement acc = acc ++ es := by
  induction es with
  | nil => intro acc; simp
  | cons e es ih =>
      intro acc
      rw [List.foldl_cons, ih]
      simp [appendElement]

/-- C9. Appending any sequence of elements with pairwise-distinct ids to the
initially empty store yields exactly that sequence in insertion order, and
the store size equals the number of appends. -/
theorem runAppends_spec (es : List CanvasElement)
    (hids : (es.map (fun e => e.id)).Nodup) :
    runAppends es = es ∧ (runAppends es).length = es.length := by
  have h := foldl_appendElement es []
  rw [List.nil_append] at h
  exact ⟨h, by rw [runAppends, h]⟩

/-- C9 (witness). -/
theorem runAppends_spec_witness :
    runAppends [sampleLabelA, sampleLabelB] = [sampleLabelA, sampleLabelB] ∧
    (runAppends [sampleLabelA, sampleLabelB]).length = 2 := by
  have h := runAppends_spec [sampleLabelA, sampleLabelB] (by decide)
  exact ⟨h.1, h.2⟩

/-! ### Frame property of the local text-edit update (C10) -/

/-- C10. `updateTextElement` leaves every element whose id differs from the
target unchanged (same position in the store), and rewrites only the `text`
and `position` fields of the element with the target id, preserving its id,
kind, author, timestamp, color (and stroke fields). -/
theorem updateTextElement_frame (targetId text : String) (pos : Pt)
    (store : List CanvasElement) (i : Nat) (e : CanvasElement)
    (hi : store[i]? = some e) :
    (e.id ≠ targetId → (updateTextElement targetId text pos store)[i]? = some e) ∧
    (e.id = targetId →
      ∃ e', (updateTextElement targetId text pos store)[i]? = some e' ∧
        e'.id = e.id ∧ e'.type = e.type ∧ e'.userId = e.userId ∧
        e'.timestamp = e.timestamp ∧ e'.data.color = e.data.color ∧
        e'.data.width = e.data.width ∧ e'.data.points = e.data.points ∧
        e'.data.text = some text ∧ e'.data.position = some pos) := by
  have hmap : (updateTextElement targetId text pos store)[i]?
      = some (if e.id = targetId then
          { e with data := { e.data with text := some text, position := some pos } }
        else e) := by
    rw [updateTextElement, List.getElem?_map, hi, Option.map_some']
  constructor
  · intro hne
    rw [hmap, if_neg hne]
  · intro heq
    refine ⟨{ e with data := { e.data with text := some text, position := some pos } },
      ?_, rfl, rfl, rfl, rfl, rfl, rfl, rfl, rfl, rfl⟩
    rw [hmap, if_pos heq]

/-- C10 (witness). -/
theorem updateTextElement_frame_witness :
    (updateTextElement "z" "new" ⟨3, 3⟩ [sampleLabelA])[0]? = some sampleLabelA ∧
    ∃ e', (updateTextElement "a" "new" ⟨3, 3⟩ [sampleLabelA])[0]? = some e' ∧
      e'.id = sampleLabelA.id ∧ e'.type = sampleLabelA.type ∧
      e'.userId = sampleLabelA.userId ∧ e'.timestamp = sampleLabelA.timestamp ∧
      e'.data.color = sampleLabelA.data.color ∧
      e'.data.width = sampleLabelA.data.width ∧
      e'.data.points = sampleLabelA.data.points ∧
      e'.data.text = some "new" ∧ e'.data.position = some ⟨3, 3⟩ :=
  ⟨(updateTextElement_frame "z" "new" ⟨3, 3⟩ [sampleLabelA] 0 sampleLabelA rfl).1
      (by decide),
   (updateTextElement_frame "a" "new" ⟨3, 3⟩ [sampleLabelA] 0 sampleLabelA rfl).2
      (by decide)⟩

/-! ### Push-notification merge (C4) -/

/-- C4. A push notification for an inserted element authored by the local
participant leaves the store unchanged (same list, no drawing); one authored
by someone else appends the element to the store and draws exactly that
element incrementally, under the current pan transform (the command list
opens with `save; translate offset`). -/
theorem handleInsertPayload_spec (username : String) (offset : Pt)
    (toolColor : String) (toolWidth : Int) (store : List CanvasElement)
    (incoming : CanvasElement) :
    (incoming.userId = username →
      handleInsertPayload username offset toolColor toolWidth store incoming
        = (store, [])) ∧
    (incoming.userId ≠ username →
      handleInsertPayload username offset toolColor toolWidth store incoming
        = (store ++ [incoming], drawSingleElementOps offset toolColor toolWidth incoming) ∧
      (drawSingleElementOps offset toolColor toolWidth incoming).take 2
        = [.save, .translate offset]) := by
  constructor
  · intro heq
    rw [handleInsertPayload, if_neg (by simp [heq])]
  · intro hne
    refine ⟨by rw [handleInsertPayload, if_pos hne], rfl⟩

/-- C4 (witness). -/
theorem handleInsertPayload_spec_witness :
    handleInsertPayload "bob" ⟨500, 500⟩ "c" 1 [] sampleRemoteElement = ([], []) ∧
    handleInsertPayload "alice" ⟨500, 500⟩ "c" 1 [] sampleRemoteElement
      = ([sampleRemoteElement],
         drawSingleElementOps ⟨500, 500⟩ "c" 1 sampleRemoteElement) :=
  ⟨(handleInsertPayload_spec "bob" ⟨500, 500⟩ "c" 1 [] sampleRemoteElement).1 rfl,
   ((handleInsertPayload_spec "alice" ⟨500, 500⟩ "c" 1 [] sampleRemoteElement).2
      (by decide)).1⟩

/-! ### Hit-testing (C5) -/

theorem checkLoop_eq_reverse_find (p : Pt) :
    ∀ s : List CanvasElement, checkLoop p s = s.reverse.find? (labelHit p) := by
  intro s
  induction s with
  | nil => rfl
  | cons e rest ih =>
      rw [show checkLoop p (e :: rest)
            = (match checkLoop p rest with
               | some r => some r
               | none => if labelHit p e then some e else none) from rfl,
          List.reverse_cons, List.find?_append, ← ih]
      cases h : checkLoop p rest with
      | some r => rfl
      | none =>
          cases hh : labelHit p e with
          | true => simp [List.find?_cons, hh]
          | false => simp [List.find?_cons, hh]

theorem labelHit_iff (p : Pt) (e : CanvasElement) :
    labelHit p e = true ↔
      ∃ pos t, e.type = .text ∧ e.data.position = some pos ∧
        e.data.text = some t ∧ t ≠ "" ∧
        pos.x - 5 ≤ p.x ∧ p.x ≤ pos.x + 8 * t.length + 5 ∧
        pos.y - 25 ≤ p.y ∧ p.y ≤ pos.y + 5 := by
  obtain ⟨i, ty, da, u, ts⟩ := e
  obtain ⟨pts, tx, dpos, col, wid⟩ := da
  cases ty with
  | draw =>
      constructor
      · intro h
        simp [labelHit] at h
      · rintro ⟨pos, t, hty, -⟩
        exact ElemKind.noConfusion hty
  | text =>
      cases dpos with
      | none =>
          constructor
          · intro h
            simp [labelHit] at h
          · rintro ⟨pos, t, -, hpos, -⟩
            exact Option.noConfusion hpos
      | some pos0 =>
          cases tx with
          | none =>
              constructor
              · intro h
                simp [labelHit] at h
              · rintro ⟨pos, t, -, -, htx, -⟩
                exact Option.noConfusion htx
          | some t0 =>
              constructor
              · intro h
                simp only [labelHit, Bool.and_eq_true, decide_eq_true_eq] at h
                obtain ⟨⟨⟨⟨h0, h1⟩, h2⟩, h3⟩, h4⟩ := h
                exact ⟨pos0, t0, rfl, rfl, rfl, h0, by omega, by omega, by omega,
                  by omega⟩
              · rintro ⟨pos, t, -, hpos, htx, ht, h1, h2, h3, h4⟩
                obtain rfl := Option.some.inj hpos
                obtain rfl := Option.some.inj htx
                simp only [labelHit, Bool.and_eq_true, decide_eq_true_eq]
                exact ⟨⟨⟨⟨ht, by omega⟩, by omega⟩, by omega⟩, by omega⟩

/-- C5. Hit-testing a click at world point `p` against the store: (a) a
click at the exact anchor position of a stored label (with truthy text)
always hits some label; (b) whatever element the hit-test returns, `p` lies
within that label's margin-plus-box (5 px margin, `8 × length` wide,
`20` high), so a click farther away than that box never matches a label;
(c) when several labels' boxes contain `p`, the most recently appended one
is the match. -/
theorem checkTextElementClick_spec (store : List CanvasElement) (p : Pt) :
    (∀ e ∈ store, ∀ pos t, e.type = .text → e.data.position = some pos →
      e.data.text = some t → t ≠ "" →
      (checkTextElementClick false store pos).isSome) ∧
    (∀ e, checkTextElementClick false store p = some e →
      ∃ pos t, e.data.position = some pos ∧ e.data.text = some t ∧
        pos.x - 5 ≤ p.x ∧ p.x ≤ pos.x + 8 * t.length + 5 ∧
        pos.y - 25 ≤ p.y ∧ p.y ≤ pos.y + 5) ∧
    (∀ pre e post, store = pre ++ e :: post →
      labelHit p e = true → (∀ e' ∈ post, labelHit p e' = false) →
      checkTextElementClick false store p = some e) := by
  refine ⟨?_, ?_, ?_⟩
  · intro e he pos t hty hpos htx ht
    rw [checkTextElementClick, if_neg (by simp), checkLoop_eq_reverse_find,
      List.find?_isSome]
    refine ⟨e, List.mem_reverse.mpr he, ?_⟩
    rw [labelHit_iff]
    exact ⟨pos, t, hty, hpos, htx, ht, by omega, by omega, by omega, by omega⟩
  · intro e he
    rw [checkTextElementClick, if_neg (by simp), checkLoop_eq_reverse_find] at he
    have := List.find?_some he
    rw [labelHit_iff] at this
    obtain ⟨pos, t, _, hpos, htx, _, h1, h2, h3, h4⟩ := this
    exact ⟨pos, t, hpos, htx, h1, h2, h3, h4⟩
  · intro pre e post hsplit hhit hpost
    rw [checkTextElementClick, if_neg (by simp), checkLoop_eq_reverse_find, hsplit,
      List.reverse_append, List.reverse_cons, List.find?_append, List.find?_append]
    have hnone : post.reverse.find? (labelHit p) = none := by
      rw [List.find?_eq_none]
      intro x hx
      simp [hpost x (List.mem_reverse.mp hx)]
    rw [hnone, List.find?_cons, hhit]
    rfl

/-- C5 (witness): two overlapping labels; a click at the first label's
anchor hits; the returned match contains the click; and the click at
`(12,10)`, inside both boxes, matches the most recently appended label. -/
theorem checkTextElementClick_spec_witness :
    (checkTextElementClick false [sampleLabelA, sampleLabelB] ⟨10, 10⟩).isSome ∧
    (∃ pos t, sampleLabelB.data.position = some pos ∧
      sampleLabelB.data.text = some t ∧
      pos.x - 5 ≤ (12 : Int) ∧ (12 : Int) ≤ pos.x + 8 * t.length + 5 ∧
      pos.y - 25 ≤ (10 : Int) ∧ (10 : Int) ≤ pos.y + 5) ∧
    checkTextElementClick false [sampleLabelA, sampleLabelB] ⟨12, 10⟩
      = some sampleLabelB :=
  ⟨(checkTextElementClick_spec [sampleLabelA, sampleLabelB] ⟨10, 10⟩).1
      sampleLabelA (by decide) ⟨10, 10⟩ "hi" rfl rfl rfl (by decide),
   (checkTextElementClick_spec [sampleLabelA, sampleLabelB] ⟨12, 10⟩).2.1
      sampleLabelB (by decide),
   (checkTextElementClick_spec [sampleLabelA, sampleLabelB] ⟨12, 10⟩).2.2
      [sampleLabelA] sampleLabelB [] rfl (by decide) (by simp)⟩

/-! ### Empty text commit (C6) -/

/-- C6. A commit of the text-edit overlay whose trimmed text is empty
creates no element and updates none (the store is returned untouched), and
resets the overlay to the cleared state: not editing (`Idle`), no pending
position, empty content, no active identifier. -/
theorem finishTextEditing_empty_commits_nothing (now : Nat)
    (toolColor username : String) (ov : OverlayState) (store : List CanvasElement)
    (h : jsTrim ov.textContent = "") :
    finishTextEditing now toolColor username ov store = (clearedOverlay, store) := by
  rw [finishTextEditing]
  cases ov.textPosition with
  | none => rfl
  | some pos => simp [h]

/-- C6 (witness): committing a whitespace-only edit of an existing label
changes nothing and clears the overlay. -/
theorem finishTextEditing_empty_witness :
    finishTextEditing 99 "c" "alice"
        { textPosition := some ⟨1, 2⟩, textContent := "  ", editingText := true,
          activeTextId := some "a" } [sampleLabelA]
      = (clearedOverlay, [sampleLabelA]) :=
  finishTextEditing_empty_commits_nothing 99 "c" "alice"
    { textPosition := some ⟨1, 2⟩, textContent := "  ", editingText := true,
      activeTextId := some "a" } [sampleLabelA] (by decide)

end Viral
